import Mathlib

/-!
Verification of the comment-processing core of the SIH25035 backend
(`src/backend/app.py`, "Optimized" variant).

Python strings are modelled as lists of Unicode code points (`List Nat`):
Python `len`, slicing `t[:n]`, and concatenation correspond to
`List.length`, `List.take n`, and `++`.  Scores (Python floats holding
small decimal literals and their sums/products) are modelled as rationals.
Timestamps and the SQLite connection machinery are outside the model; the
PersistenceGateway is modelled by the truncating write helper plus an
explicit success/failure flag.
-/

namespace SIH

/-- A Python string as its list of Unicode code points. -/
abbrev Text := List Nat

/-- Code points of a Lean string literal, used to write concrete texts. -/
def str (x : String) : Text := x.toList.map Char.toNat

/-- ASCII whitespace recognised by Python `str.split()` / `str.strip()`
(space, tab, newline, carriage return, vertical tab, form feed). -/
def isWs (c : Nat) : Bool :=
  c = 32 || c = 9 || c = 10 || c = 13 || c = 11 || c = 12

/-- Python `str.lower()` on one code point (ASCII fragment). -/
def pyLowerChar (c : Nat) : Nat := if 65 ≤ c ∧ c ≤ 90 then c + 32 else c

/-- Python `text.lower()`. -/
def pyLower (t : Text) : Text := t.map pyLowerChar

/-- Helper for `pySplitWs`: `acc` holds the current word reversed. -/
def pySplitWsAux : Text → Text → List Text
  | [], acc => if acc = [] then [] else [acc.reverse]
  | c :: cs, acc =>
    if isWs c then
      if acc = [] then pySplitWsAux cs [] else acc.reverse :: pySplitWsAux cs []
    else pySplitWsAux cs (c :: acc)

/-- Python `text.split()`: split on whitespace runs, dropping empty pieces. -/
def pySplitWs (t : Text) : List Text := pySplitWsAux t []

/-- Python `text.strip()`. -/
def pyStrip (t : Text) : Text :=
  ((t.dropWhile (fun c => isWs c)).reverse.dropWhile (fun c => isWs c)).reverse

/-- The ellipsis marker `"..."` appended by the truncating code paths. -/
def dots : Text := str "..."

/-- `FastSentimentAnalyzer.positive_keywords` (app.py:130-135). -/
def positive_keywords : List Text :=
  [str "excellent", str "great", str "good", str "positive", str "support",
   str "benefit", str "improve", str "welcome", str "appreciate",
   str "effective", str "successful", str "helpful", str "valuable",
   str "outstanding", str "wonderful", str "amazing", str "fantastic",
   str "brilliant", str "perfect", str "love", str "like", str "enjoy"]

/-- `FastSentimentAnalyzer.negative_keywords` (app.py:136-141). -/
def negative_keywords : List Text :=
  [str "terrible", str "bad", str "negative", str "oppose", str "against",
   str "harm", str "problem", str "concerned", str "worried",
   str "disappointed", str "frustrated", str "angry", str "upset",
   str "awful", str "horrible", str "hate", str "dislike", str "reject",
   str "refuse", str "fail", str "failure", str "wrong", str "error"]

/-- Body of `FastSentimentAnalyzer.__call__` (app.py:143-157) applied to
the already-lowercased text.  `words` is a Python set; `len(words &
keywords)` counts the keywords present among the tokens, which (the
keyword lists being duplicate-free) is the filter length below.  The
analyzer returns a one-element list of label/score dicts. -/
def fastSentimentCore (text_lower : Text) : List (Text × ℚ) :=
  let words := pySplitWs text_lower
  let pos_score := (positive_keywords.filter (fun w => decide (w ∈ words))).length
  let neg_score := (negative_keywords.filter (fun w => decide (w ∈ words))).length
  if pos_score > neg_score then
    [(str "POSITIVE", min (95/100 : ℚ) (7/10 + ((pos_score : ℚ) - (neg_score : ℚ)) * (1/10)))]
  else if neg_score > pos_score then
    [(str "NEGATIVE", min (95/100 : ℚ) (7/10 + ((neg_score : ℚ) - (pos_score : ℚ)) * (1/10)))]
  else
    [(str "NEUTRAL", (6/10 : ℚ))]

/-- `FastSentimentAnalyzer.__call__` (app.py:143-157): lowercase the text
(`text_lower = text.lower()`), then classify by keyword counts. -/
def fastSentimentAnalyzer (text : Text) : List (Text × ℚ) :=
  fastSentimentCore (pyLower text)

/-- Python `delimiter in text` for the two-character delimiter `p ++ " "`. -/
def hasSep (p : Nat) : Text → Bool
  | [] => false
  | [_] => false
  | c :: d :: cs => (c = p && d = 32) || hasSep p (d :: cs)

/-- Python `text.split(p + " ")` for a sentence-ending delimiter: split on
non-overlapping occurrences of the two-character separator, keeping empty
segments (they are filtered out afterwards, as in the source). -/
def splitSep (p : Nat) : Text → List Text
  | [] => [[]]
  | [c] => [[c]]
  | c :: d :: cs =>
    if c = p ∧ d = 32 then [] :: splitSep p cs
    else
      match splitSep p (d :: cs) with
      | seg :: rest => (c :: seg) :: rest
      | [] => [[c]]

/-- The `sentences` computed by `FastSummarizer.__call__` (app.py:177-181):
for the first delimiter among `". "`, `"! "`, `"? "` occurring in the text,
split on it and keep the stripped, non-empty segments. -/
def fastSummarizerSentences (text : Text) : List Text :=
  if hasSep 46 text then ((splitSep 46 text).map pyStrip).filter (fun x => x ≠ [])
  else if hasSep 33 text then ((splitSep 33 text).map pyStrip).filter (fun x => x ≠ [])
  else if hasSep 63 text then ((splitSep 63 text).map pyStrip).filter (fun x => x ≠ [])
  else []

/-- `FastSummarizer.__call__` (app.py:165-193): strip the input; empty or
whitespace-only input yields `"No content"`; stripped input of at most 50
characters is returned as-is; otherwise take the first extracted sentence
(truncated to 47 characters plus `"..."` when longer than 47), or, with no
sentence boundary, hard-truncate the stripped text the same way. -/
def fastSummarizer (text0 : Text) : Text :=
  if pyStrip text0 = [] then str "No content"
  else
    let text := pyStrip text0
    if text.length ≤ 50 then text
    else
      match fastSummarizerSentences text with
      | smry :: _ => if smry.length > 47 then smry.take 47 ++ dots else smry
      | [] => if text.length > 47 then text.take 47 ++ dots else text

example : fastSentimentAnalyzer (str "a GOOD policy") = [(str "POSITIVE", 8/10)] := by
  have h1 : (positive_keywords.filter
      (fun w => decide (w ∈ pySplitWs (pyLower (str "a GOOD policy"))))).length = 1 := by decide
  have h2 : (negative_keywords.filter
      (fun w => decide (w ∈ pySplitWs (pyLower (str "a GOOD policy"))))).length = 0 := by decide
  unfold fastSentimentAnalyzer fastSentimentCore
  dsimp only
  rw [h1, h2]
  norm_num

example : fastSummarizer (str " hi ") = str "hi" := by decide

example : fastSummarizer
    (str "This policy is excellent for everyone involved today. More text here.")
    = str "This policy is excellent for everyone involved ..." := by decide

/-! ## Result caches and the processing state

`OptimizedAIModels` keeps two dict result caches keyed by `hash(text)`
(`sentiment_cache`, `summary_cache`, app.py:75-77) guarded by one lock.
A Python dict is modelled as an association list in insertion order
(updating an existing key keeps its position; a fresh key is appended).
The per-process built-in `hash` is a parameter `h : Text → Nat` of every
operation that uses it.  Provider invocations are modelled as functions
returning `Option` (`none` models a raised exception), and the state
carries an invocation counter per chain so that caching claims about
"how often the provider runs" are expressible. -/

/-- Python `key in dict` / `dict[key]` on the insertion-ordered model. -/
def lookupKey {α : Type} : List (Nat × α) → Nat → Option α
  | [], _ => none
  | (k', v) :: rest, k => if k' = k then some v else lookupKey rest k

/-- The cache write of `get_sentiment_cached` / `get_summary_cached`
(app.py:211-218, 233-240): store under the key (an existing key keeps its
dict position), then, if the size exceeds 1000, delete the first 100 keys
in insertion order. -/
def cachePut {α : Type} (c : List (Nat × α)) (k : Nat) (v : α) : List (Nat × α) :=
  let c' :=
    if k ∈ c.map Prod.fst then
      c.map (fun p => if p.1 = k then (k, v) else p)
    else c ++ [(k, v)]
  if c'.length > 1000 then c'.drop 100 else c'

/-- A raw sentiment result: a list of `{label, score}` dicts (the
`isinstance(results[0], list)` unwrapping of nested lists is left
implicit: results are modelled already flattened). -/
abbrev SentRes := List (Text × ℚ)

/-- A raw summarizer result: a list of `{summary_text}` dicts. -/
abbrev SumRes := List Text

/-- The shared mutable state of `OptimizedAIModels`: the two result
caches, plus one provider-invocation counter per chain (the counters are
ghost state used to state the caching claims). -/
structure ModelState where
  sentCache : List (Nat × SentRes)
  sumCache : List (Nat × SumRes)
  sentCount : Nat
  sumCount : Nat
deriving DecidableEq

/-- The state of a fresh process: empty caches, no invocations. -/
def initState : ModelState := ⟨[], [], 0, 0⟩

/-- `OptimizedAIModels.get_sentiment_cached` (app.py:202-222): hash the
text, return a cached result if present; otherwise invoke the sentiment
provider (`none` models a raised exception, which propagates before
anything is cached) and cache its raw result. -/
def get_sentiment_cached (h : Text → Nat) (sent : Text → Option SentRes)
    (st : ModelState) (text : Text) : Option SentRes × ModelState :=
  match lookupKey st.sentCache (h text) with
  | some r => (some r, st)
  | none =>
    match sent text with
    | none => (none, { st with sentCount := st.sentCount + 1 })
    | some r =>
      (some r, { st with
                  sentCache := cachePut st.sentCache (h text) r,
                  sentCount := st.sentCount + 1 })

/-- `OptimizedAIModels.get_summary_cached` (app.py:224-244), same shape as
the sentiment variant on the summary cache. -/
def get_summary_cached (h : Text → Nat) (summ : Text → Option SumRes)
    (st : ModelState) (text : Text) : Option SumRes × ModelState :=
  match lookupKey st.sumCache (h text) with
  | some r => (some r, st)
  | none =>
    match summ text with
    | none => (none, { st with sumCount := st.sumCount + 1 })
    | some r =>
      (some r, { st with
                  sumCache := cachePut st.sumCache (h text) r,
                  sumCount := st.sumCount + 1 })

/-- The label map of `analyze_sentiment_fast` (app.py:344-351). -/
def label_mapping : List (Text × Text) :=
  [(str "LABEL_0", str "negative"), (str "LABEL_1", str "neutral"),
   (str "LABEL_2", str "positive"), (str "NEGATIVE", str "negative"),
   (str "NEUTRAL", str "neutral"), (str "POSITIVE", str "positive")]

/-- `label_mapping.get(label, label.lower())` (app.py:353). -/
def mapLabel (lab : Text) : Text :=
  match (label_mapping.filter (fun p => decide (p.1 = lab))).head? with
  | some p => p.2
  | none => pyLower lab

/-- Python `max(results, key=lambda x: x['score'])`: the first entry whose
score is maximal (a later entry replaces the current one only when
strictly greater). -/
def pymaxBy (x : Text × ℚ) : List (Text × ℚ) → Text × ℚ
  | [] => x
  | y :: ys => if y.2 > x.2 then pymaxBy y ys else pymaxBy x ys

/-- The result post-processing inside the `try` of `analyze_sentiment_fast`
(app.py:337-356): `max(results, ...)` raises on an empty list, which the
`except` turns into the `("neutral", 0.5)` default. -/
def postSentiment (results : SentRes) : Text × ℚ :=
  match results with
  | [] => (str "neutral", (1/2 : ℚ))
  | r :: rs =>
    let best := pymaxBy r rs
    (mapLabel best.1, best.2)

/-- `analyze_sentiment_fast` (app.py:328-360): every failure inside the
`try` — a raising provider (`none` from the cache layer) or a malformed
result — yields the `("neutral", 0.5)` default. -/
def analyze_sentiment_fast (h : Text → Nat) (sent : Text → Option SentRes)
    (st : ModelState) (text : Text) : (Text × ℚ) × ModelState :=
  match get_sentiment_cached h sent st text with
  | (none, st') => ((str "neutral", (1/2 : ℚ)), st')
  | (some results, st') => (postSentiment results, st')

/-- The summary post-processing of `generate_summary_fast` (app.py:373-381):
`summary_result[0]['summary_text']` raises on an empty result — caught by
the `except`, which returns the truncation fallback — and the summary is
clipped to 50 characters. -/
def postSummary (text : Text) : SumRes → Text
  | [] => if text.length > 47 then text.take 47 ++ dots else text
  | smry :: _ => if smry.length > 50 then smry.take 47 ++ dots else smry

/-- `generate_summary_fast` (app.py:362-385): texts of fewer than 3 words
skip cache and provider entirely; otherwise the cached/provider result is
post-processed, and a raising provider falls back to truncating the input. -/
def generate_summary_fast (h : Text → Nat) (summ : Text → Option SumRes)
    (st : ModelState) (text : Text) : Text × ModelState :=
  if (pySplitWs text).length < 3 then
    ((if text.length ≤ 50 then text.take 50 else text.take 47 ++ dots), st)
  else
    match get_summary_cached h summ st text with
    | (none, st') => ((if text.length > 47 then text.take 47 ++ dots else text), st')
    | (some result, st') => (postSummary text result, st')

/-- The merged record built by `process_comment_async` and stored by
`save_comment_to_db_fast` (timestamps are outside the model). -/
structure Record where
  stakeholder : Text
  rawText : Text
  sentimentLabel : Text
  sentimentScore : ℚ
  summary : Text
deriving DecidableEq

/-- `process_comment_async` (app.py:387-416): truncate the input to 300
characters, then compute sentiment and summary.  (The source gathers the
two analyses concurrently on a thread pool; they touch disjoint caches and
counters, so their effects commute and are modelled sequentially.) -/
def process_comment_async (h : Text → Nat) (sent : Text → Option SentRes)
    (summ : Text → Option SumRes) (st : ModelState)
    (stakeholder_type raw_text : Text) : Record × ModelState :=
  let raw := raw_text.take 300
  let sres := analyze_sentiment_fast h sent st raw
  let gres := generate_summary_fast h summ sres.2 raw
  ({ stakeholder := stakeholder_type, rawText := raw,
     sentimentLabel := sres.1.1, sentimentScore := sres.1.2,
     summary := gres.1 }, gres.2)

/-- `save_comment_to_db_fast` (app.py:418-439): the stored row re-truncates
`raw_text` to 300 and `summary` to 50 characters. -/
def save_comment_to_db_fast (r : Record) : Record :=
  { r with rawText := r.rawText.take 300, summary := r.summary.take 50 }

/-- The `/api/comments` handler `submit_comment` (app.py:772-801): process,
then persist; `dbOk` models whether the SQLite write succeeds, and a failed
write is the only error that escapes (as the handler's HTTP 500). -/
def submit_comment (h : Text → Nat) (sent : Text → Option SentRes)
    (summ : Text → Option SumRes) (st : ModelState) (dbOk : Bool)
    (stakeholder_type raw_text : Text) : Except Unit (Record × ModelState) :=
  let pres := process_comment_async h sent summ st stakeholder_type raw_text
  if dbOk then Except.ok (save_comment_to_db_fast pres.1, pres.2)
  else Except.error ()

/-! ## Helper lemmas -/

theorem dots_length : dots.length = 3 := rfl

/-- Appending the ellipsis to a 47-character truncation stays within 50. -/
theorem take47_dots_length (t : Text) : (t.take 47 ++ dots).length ≤ 50 := by
  simp only [List.length_append, List.length_take, dots_length]
  omega

/-- Every branch of the summary post-processing yields at most 50 characters. -/
theorem postSummary_length_le (text : Text) (result : SumRes) :
    (postSummary text result).length ≤ 50 := by
  cases result with
  | nil =>
    simp only [postSummary]
    by_cases hl : text.length > 47
    · rw [if_pos hl]
      exact take47_dots_length text
    · rw [if_neg hl]
      omega
  | cons smry rest =>
    simp only [postSummary]
    by_cases hl : smry.length > 50
    · rw [if_pos hl]
      exact take47_dots_length smry
    · rw [if_neg hl]
      omega

/-- The summary produced by `generate_summary_fast` never exceeds 50
characters, whatever the cache holds and however the provider behaves. -/
theorem generate_summary_fast_length_le (h : Text → Nat)
    (summ : Text → Option SumRes) (st : ModelState) (text : Text) :
    (generate_summary_fast h summ st text).1.length ≤ 50 := by
  unfold generate_summary_fast
  split
  · split
    · simp only [List.length_take]
      omega
    · exact take47_dots_length text
  · rcases hq : get_summary_cached h summ st text with ⟨_ | result, st'⟩
    · simp only []
      by_cases hl : text.length > 47
      · rw [if_pos hl]
        exact take47_dots_length text
      · rw [if_neg hl]
        omega
    · exact postSummary_length_le text result

/-! ## C1 -/

/-- C1: for every input text of length between 1 and 300 and any behavior
of the sentiment and summary providers (success with arbitrary output, or a
raised exception, modelled by the `Option`-valued provider parameters and
arbitrary cache state), the record produced by `process_comment_async`
satisfies `summary.length ≤ 50` and `rawText.length ≤ 300`; the bound is
enforced at two independent layers: the orchestrator's record already
satisfies it, `save_comment_to_db_fast` re-truncates any record to within
the bounds, and hence so does the persisted record. -/
theorem C1_output_length_bounds (h : Text → Nat) (sent : Text → Option SentRes)
    (summ : Text → Option SumRes) (st : ModelState) (stake text : Text)
    (_hlo : 1 ≤ text.length) (_hhi : text.length ≤ 300) :
    ((process_comment_async h sent summ st stake text).1.summary.length ≤ 50 ∧
      (process_comment_async h sent summ st stake text).1.rawText.length ≤ 300) ∧
    (∀ q : Record, (save_comment_to_db_fast q).summary.length ≤ 50 ∧
      (save_comment_to_db_fast q).rawText.length ≤ 300) ∧
    ((save_comment_to_db_fast (process_comment_async h sent summ st stake text).1).summary.length ≤ 50 ∧
      (save_comment_to_db_fast (process_comment_async h sent summ st stake text).1).rawText.length ≤ 300) := by
  refine ⟨⟨?_, ?_⟩, fun q => ⟨?_, ?_⟩, ⟨?_, ?_⟩⟩
  · exact generate_summary_fast_length_le h summ _ (text.take 300)
  · exact List.length_take_le 300 text
  · exact List.length_take_le 50 q.summary
  · exact List.length_take_le 300 q.rawText
  · exact List.length_take_le 50 _
  · exact List.length_take_le 300 _

/-- Witness for C1 at a concrete input with always-raising providers. -/
theorem C1_output_length_bounds_witness :
    (1 ≤ (str "hello").length ∧ (str "hello").length ≤ 300) ∧
    (((process_comment_async (fun _ => 0) (fun _ => none) (fun _ => none)
        initState (str "citizen") (str "hello")).1.summary.length ≤ 50 ∧
      (process_comment_async (fun _ => 0) (fun _ => none) (fun _ => none)
        initState (str "citizen") (str "hello")).1.rawText.length ≤ 300) ∧
    (∀ q : Record, (save_comment_to_db_fast q).summary.length ≤ 50 ∧
      (save_comment_to_db_fast q).rawText.length ≤ 300) ∧
    ((save_comment_to_db_fast (process_comment_async (fun _ => 0) (fun _ => none)
        (fun _ => none) initState (str "citizen") (str "hello")).1).summary.length ≤ 50 ∧
      (save_comment_to_db_fast (process_comment_async (fun _ => 0) (fun _ => none)
        (fun _ => none) initState (str "citizen") (str "hello")).1).rawText.length ≤ 300)) :=
  ⟨⟨by decide, by decide⟩,
    C1_output_length_bounds (fun _ => 0) (fun _ => none) (fun _ => none)
      initState (str "citizen") (str "hello") (by decide) (by decide)⟩

/-! ## C8 -/

/-- C8: for every input whose whitespace word count is below 3,
summarization is skipped entirely: the summary is the original text when it
fits in 50 characters and its 47-character truncation plus ellipsis
otherwise, and the state — both summary cache and provider-invocation
counter — is untouched (neither the cache nor the provider is consulted;
the short-circuit branch returns before either is reached). -/
theorem C8_short_text_rule (h : Text → Nat) (summ : Text → Option SumRes)
    (st : ModelState) (text : Text)
    (hwc : (pySplitWs text).length < 3) :
    generate_summary_fast h summ st text =
      ((if text.length ≤ 50 then text.take 50 else text.take 47 ++ dots), st) ∧
    (text.length ≤ 50 → (generate_summary_fast h summ st text).1 = text) := by
  have hmain : generate_summary_fast h summ st text =
      ((if text.length ≤ 50 then text.take 50 else text.take 47 ++ dots), st) := by
    unfold generate_summary_fast
    rw [if_pos hwc]
  refine ⟨hmain, fun hle => ?_⟩
  rw [hmain]
  simp only [if_pos hle]
  exact List.take_of_length_le hle

/-- Witness for C8: the two-word input `"Good idea."` is summarized
verbatim, with the state untouched. -/
theorem C8_short_text_rule_witness :
    (pySplitWs (str "Good idea.")).length < 3 ∧
    generate_summary_fast (fun _ => 0) (fun _ => none) initState (str "Good idea.")
      = (str "Good idea.", initState) := by
  refine ⟨by decide, ?_⟩
  rw [(C8_short_text_rule (fun _ => 0) (fun _ => none) initState
        (str "Good idea.") (by decide)).1]
  decide

/-! ## C10 -/

theorem pyLowerChar_idem (c : Nat) : pyLowerChar (pyLowerChar c) = pyLowerChar c := by
  unfold pyLowerChar
  by_cases h1 : 65 ≤ c ∧ c ≤ 90
  · rw [if_pos h1, if_neg (by omega)]
  · rw [if_neg h1, if_neg h1]

theorem pyLower_idem (t : Text) : pyLower (pyLower t) = pyLower t := by
  unfold pyLower
  rw [List.map_map]
  refine List.map_congr_left (fun c _ => ?_)
  exact pyLowerChar_idem c

/-- C10: the heuristic keyword classifier is case-insensitive: classifying
a text and classifying its lowercased form produce the same label and the
same confidence, because `FastSentimentAnalyzer.__call__` lowercases the
text before tokenizing and matching marker words. -/
theorem C10_classifier_case_insensitive (t : Text) :
    fastSentimentAnalyzer (pyLower t) = fastSentimentAnalyzer t := by
  unfold fastSentimentAnalyzer
  rw [pyLower_idem]

/-! ## C6 -/

/-- Counting with a set intersection agrees with filtering the
duplicate-free keyword list by token membership. -/
theorem card_inter_toFinset (ws P : List Text) (hP : P.Nodup) :
    (ws.toFinset ∩ P.toFinset).card
      = (P.filter (fun w => decide (w ∈ ws))).length := by
  rw [Finset.inter_comm, ← Finset.filter_mem_eq_inter]
  have h1 : P.toFinset.filter (fun w => w ∈ ws.toFinset)
      = (P.filter (fun w => decide (w ∈ ws))).toFinset := by
    rw [List.toFinset_filter]
    refine Finset.filter_congr (fun x _ => ?_)
    simp
  rw [h1, List.toFinset_card_of_nodup (hP.filter _)]

/-- C6: the heuristic keyword classifier computes exactly the contract
formula: with `toks` the (lowercased, whitespace-split) token set and
`p`, `n` the sizes of its intersections with the disjoint positive and
negative marker-word sets, the label is POSITIVE when `p > n`, NEGATIVE
when `n > p`, NEUTRAL on a tie, and the confidence is
`min(0.95, 0.7 + 0.1 * |p - n|)` off a tie and `0.6` on a tie.  The first
conjunct checks that the two marker-word sets are indeed disjoint. -/
theorem C6_heuristic_keyword_classifier (t : Text) :
    (∀ w ∈ positive_keywords, w ∉ negative_keywords) ∧
    fastSentimentAnalyzer t =
      (let toks := (pySplitWs (pyLower t)).toFinset
       let p := (toks ∩ positive_keywords.toFinset).card
       let n := (toks ∩ negative_keywords.toFinset).card
       if p > n then
         [(str "POSITIVE", min (95/100 : ℚ) (7/10 + |(p : ℚ) - (n : ℚ)| * (1/10)))]
       else if n > p then
         [(str "NEGATIVE", min (95/100 : ℚ) (7/10 + |(p : ℚ) - (n : ℚ)| * (1/10)))]
       else [(str "NEUTRAL", (6/10 : ℚ))]) := by
  constructor
  · decide
  · have hP : positive_keywords.Nodup := by decide
    have hN : negative_keywords.Nodup := by decide
    unfold fastSentimentAnalyzer fastSentimentCore
    dsimp only
    rw [card_inter_toFinset _ _ hP, card_inter_toFinset _ _ hN]
    set p := (positive_keywords.filter
      (fun w => decide (w ∈ pySplitWs (pyLower t)))).length with hp
    set n := (negative_keywords.filter
      (fun w => decide (w ∈ pySplitWs (pyLower t)))).length with hn
    by_cases h1 : p > n
    · rw [if_pos h1, if_pos h1]
      have habs : |(p : ℚ) - (n : ℚ)| = (p : ℚ) - (n : ℚ) :=
        abs_of_pos (sub_pos.mpr (by exact_mod_cast h1))
      rw [habs]
    · rw [if_neg h1, if_neg h1]
      by_cases h2 : n > p
      · rw [if_pos h2, if_pos h2]
        have habs : |(p : ℚ) - (n : ℚ)| = (n : ℚ) - (p : ℚ) := by
          rw [abs_sub_comm]
          exact abs_of_pos (sub_pos.mpr (by exact_mod_cast h2))
        rw [habs]
      · rw [if_neg h2, if_neg h2]

/-! ## C7 -/

/-- C7 counterexample: the input `" hi "` has length 4, at most 50, yet it
is not returned as-is: `FastSummarizer.__call__` strips surrounding
whitespace first and returns `"hi"`. -/
theorem C7_counterexample :
    (str " hi ").length ≤ 50 ∧ fastSummarizer (str " hi ") = str "hi" ∧
    fastSummarizer (str " hi ") ≠ str " hi " := by decide

/-- Modelled from the amended C7 claim, a spec-side restatement of the
truncation summarizer to be compared with the embedded `fastSummarizer`:
strip surrounding whitespace; when nothing remains produce `"No content"`;
return a stripped text of at most 50 characters as-is; otherwise take the
first extracted sentence when one exists and the whole stripped text when
none does, truncating the result to 47 characters plus an ellipsis when it
is longer than 47. -/
def truncationSummarizerSpec (input : Text) : Text :=
  let t := pyStrip input
  if t = [] then str "No content"
  else if t.length ≤ 50 then t
  else
    let base :=
      match (fastSummarizerSentences t).head? with
      | some s0 => s0
      | none => t
    if base.length > 47 then base.take 47 ++ dots else base

/-- C7 (amended): the truncation summarizer first strips surrounding
whitespace and maps empty or whitespace-only input to `"No content"`; a
stripped input of at most 50 characters is returned as-is; otherwise the
first segment obtained by splitting on sentence-ending punctuation (or the
whole stripped text when no sentence boundary exists) is returned,
truncated to 47 characters plus an ellipsis when longer than 47.  The
result never exceeds 50 characters. -/
theorem C7_truncation_summarizer_amended (t : Text) :
    fastSummarizer t = truncationSummarizerSpec t ∧
    (fastSummarizer t).length ≤ 50 := by
  constructor
  · unfold fastSummarizer truncationSummarizerSpec
    dsimp only
    by_cases h0 : pyStrip t = []
    · rw [if_pos h0, if_pos h0]
    · rw [if_neg h0, if_neg h0]
      by_cases h1 : (pyStrip t).length ≤ 50
      · rw [if_pos h1, if_pos h1]
      · rw [if_neg h1, if_neg h1]
        cases hs : fastSummarizerSentences (pyStrip t) with
        | nil => rfl
        | cons smry rest => rfl
  · unfold fastSummarizer
    dsimp only
    by_cases h0 : pyStrip t = []
    · rw [if_pos h0]
      decide
    · rw [if_neg h0]
      by_cases h1 : (pyStrip t).length ≤ 50
      · rw [if_pos h1]
        exact h1
      · rw [if_neg h1]
        cases hs : fastSummarizerSentences (pyStrip t) with
        | nil =>
          dsimp only
          by_cases h2 : (pyStrip t).length > 47
          · rw [if_pos h2]
            exact take47_dots_length _
          · rw [if_neg h2]
            omega
        | cons smry rest =>
          dsimp only
          by_cases h2 : smry.length > 47
          · rw [if_pos h2]
            exact take47_dots_length _
          · rw [if_neg h2]
            omega

/-! ## C2 -/

/-- When the fingerprint misses the summary cache and the summary provider
raises, `generate_summary_fast` returns the truncation fallback (and the
short-circuit branch for texts under 3 words is provider-independent). -/
theorem gsf_provider_raises (h : Text → Nat) (summ : Text → Option SumRes)
    (st : ModelState) (text : Text)
    (hm : lookupKey st.sumCache (h text) = none)
    (hraise : summ text = none) :
    (generate_summary_fast h summ st text).1 =
      (if (pySplitWs text).length < 3 then
        (if text.length ≤ 50 then text.take 50 else text.take 47 ++ dots)
      else (if text.length > 47 then text.take 47 ++ dots else text)) := by
  unfold generate_summary_fast get_summary_cached
  rw [hm, hraise]
  by_cases hwc : (pySplitWs text).length < 3
  · rw [if_pos hwc, if_pos hwc]
  · rw [if_neg hwc, if_neg hwc]

/-- C2: processing a comment absorbs every analyzer failure.  With the
fingerprint not previously cached: when the sentiment provider raises, the
record carries exactly `label = "neutral"`, `score = 0.5`; when the summary
provider raises, the record carries a non-empty summary of at most 50
characters obtained by truncating the (300-truncated) input — either its
first 50 characters or its first 47 characters plus an ellipsis; and for
every provider behavior, `submit_comment` fails exactly when the
persistence write fails (only a persistence failure propagates). -/
theorem C2_analyzer_failures_absorbed (h : Text → Nat)
    (sent : Text → Option SentRes) (summ : Text → Option SumRes)
    (st : ModelState) (stake text : Text)
    (hne : 1 ≤ text.length)
    (hs : lookupKey st.sentCache (h (text.take 300)) = none)
    (hm : lookupKey st.sumCache (h (text.take 300)) = none) :
    (sent (text.take 300) = none →
      (process_comment_async h sent summ st stake text).1.sentimentLabel = str "neutral" ∧
      (process_comment_async h sent summ st stake text).1.sentimentScore = 1/2) ∧
    (summ (text.take 300) = none →
      (process_comment_async h sent summ st stake text).1.summary ≠ [] ∧
      (process_comment_async h sent summ st stake text).1.summary.length ≤ 50 ∧
      ((process_comment_async h sent summ st stake text).1.summary = (text.take 300).take 50 ∨
       (process_comment_async h sent summ st stake text).1.summary = (text.take 300).take 47 ++ dots)) ∧
    (∀ dbOk : Bool, (submit_comment h sent summ st dbOk stake text).toOption.isSome = dbOk) := by
  have hrawlen : 1 ≤ (text.take 300).length := by
    rw [List.length_take]
    omega
  refine ⟨?_, ?_, ?_⟩
  · intro hraise
    unfold process_comment_async analyze_sentiment_fast get_sentiment_cached
    dsimp only
    rw [hs, hraise]
    exact ⟨rfl, rfl⟩
  · intro hraise
    have hsum : (process_comment_async h sent summ st stake text).1.summary
        = (generate_summary_fast h summ
            (analyze_sentiment_fast h sent st (text.take 300)).2 (text.take 300)).1 := rfl
    have hcache : (analyze_sentiment_fast h sent st (text.take 300)).2.sumCache
        = st.sumCache := by
      unfold analyze_sentiment_fast get_sentiment_cached
      rcases hl : lookupKey st.sentCache (h (text.take 300)) with _ | r
      · rcases hp : sent (text.take 300) with _ | r <;> rfl
      · rfl
    have hfall := gsf_provider_raises h summ
      (analyze_sentiment_fast h sent st (text.take 300)).2 (text.take 300)
      (by rw [hcache]; exact hm) hraise
    rw [hsum, hfall]
    by_cases hwc : (pySplitWs (text.take 300)).length < 3
    · rw [if_pos hwc]
      by_cases hlen : (text.take 300).length ≤ 50
      · rw [if_pos hlen]
        refine ⟨?_, ?_, Or.inl rfl⟩
        · have : 0 < ((text.take 300).take 50).length := by
            rw [List.length_take]
            omega
          exact List.length_pos.mp this
        · rw [List.length_take]
          omega
      · rw [if_neg hlen]
        refine ⟨?_, take47_dots_length _, Or.inr rfl⟩
        have : 0 < ((text.take 300).take 47 ++ dots).length := by
          rw [List.length_append, dots_length]
          omega
        exact List.length_pos.mp this
    · rw [if_neg hwc]
      by_cases hlen : (text.take 300).length > 47
      · rw [if_pos hlen]
        refine ⟨?_, take47_dots_length _, Or.inr rfl⟩
        have : 0 < ((text.take 300).take 47 ++ dots).length := by
          rw [List.length_append, dots_length]
          omega
        exact List.length_pos.mp this
      · rw [if_neg hlen]
        refine ⟨?_, by omega, Or.inl ?_⟩
        · exact List.length_pos.mp (by omega)
        · exact (List.take_of_length_le (by omega)).symm
  · intro dbOk
    cases dbOk <;> simp [submit_comment, Except.toOption]

/-- Witness for C2 with always-raising providers on a fresh process. -/
theorem C2_analyzer_failures_absorbed_witness :
    (1 ≤ (str "hello").length ∧
     lookupKey initState.sentCache ((fun _ => 0) ((str "hello").take 300)) = none ∧
     lookupKey initState.sumCache ((fun _ => 0) ((str "hello").take 300)) = none) ∧
    (((fun (_ : Text) => (none : Option SentRes)) ((str "hello").take 300) = none →
      (process_comment_async (fun _ => 0) (fun _ => none) (fun _ => none)
        initState (str "citizen") (str "hello")).1.sentimentLabel = str "neutral" ∧
      (process_comment_async (fun _ => 0) (fun _ => none) (fun _ => none)
        initState (str "citizen") (str "hello")).1.sentimentScore = 1/2) ∧
    (((fun (_ : Text) => (none : Option SumRes)) ((str "hello").take 300) = none →
      (process_comment_async (fun _ => 0) (fun _ => none) (fun _ => none)
        initState (str "citizen") (str "hello")).1.summary ≠ [] ∧
      (process_comment_async (fun _ => 0) (fun _ => none) (fun _ => none)
        initState (str "citizen") (str "hello")).1.summary.length ≤ 50 ∧
      ((process_comment_async (fun _ => 0) (fun _ => none) (fun _ => none)
        initState (str "citizen") (str "hello")).1.summary = ((str "hello").take 300).take 50 ∨
       (process_comment_async (fun _ => 0) (fun _ => none) (fun _ => none)
        initState (str "citizen") (str "hello")).1.summary = ((str "hello").take 300).take 47 ++ dots))) ∧
    (∀ dbOk : Bool, (submit_comment (fun _ => 0) (fun _ => none) (fun _ => none)
      initState dbOk (str "citizen") (str "hello")).toOption.isSome = dbOk)) :=
  ⟨⟨by decide, by decide, by decide⟩,
    C2_analyzer_failures_absorbed (fun _ => 0) (fun _ => none) (fun _ => none)
      initState (str "citizen") (str "hello") (by decide) (by decide) (by decide)⟩

/-! ## C9 -/

/-- The labels `analyze_sentiment_fast` knows how to map (the keys of
`label_mapping`). -/
def knownLabels : List Text :=
  [str "LABEL_0", str "LABEL_1", str "LABEL_2",
   str "NEGATIVE", str "NEUTRAL", str "POSITIVE"]

/-- The labels the spec allows on a persisted record. -/
def allowedLabels : List Text := [str "positive", str "neutral", str "negative"]

/-- A well-formed raw sentiment result: every entry carries a known label
and a score in `[0, 1]`. -/
abbrev GoodSentRes (rs : SentRes) : Prop :=
  ∀ e ∈ rs, e.1 ∈ knownLabels ∧ 0 ≤ e.2 ∧ e.2 ≤ 1

/-- C9 counterexample: the claim fails for garbage provider output that
does not raise.  A provider returning `[("WEIRD", 2)]` yields a persisted
sentiment artifact with label `"weird"` — outside the allowed set — and
score 2 > 1; `analyze_sentiment_fast` never clamps either field. -/
theorem C9_counterexample :
    ((process_comment_async (fun _ => 0) (fun _ => some [(str "WEIRD", 2)])
        (fun _ => none) initState (str "citizen") (str "one two three")).1.sentimentLabel
      ∉ allowedLabels) ∧
    ¬ ((process_comment_async (fun _ => 0) (fun _ => some [(str "WEIRD", 2)])
        (fun _ => none) initState (str "citizen") (str "one two three")).1.sentimentScore ≤ 1) := by
  constructor
  · decide
  · decide

theorem pymaxBy_mem (x : Text × ℚ) (l : List (Text × ℚ)) :
    pymaxBy x l ∈ x :: l := by
  induction l generalizing x with
  | nil => simp [pymaxBy]
  | cons y ys ih =>
    unfold pymaxBy
    by_cases hgt : y.2 > x.2
    · rw [if_pos hgt]
      have hm := ih y
      simp only [List.mem_cons] at hm ⊢
      tauto
    · rw [if_neg hgt]
      have hm := ih x
      simp only [List.mem_cons] at hm ⊢
      tauto

theorem lookupKey_mem {α : Type} (c : List (Nat × α)) (k : Nat) (v : α)
    (hl : lookupKey c k = some v) : (k, v) ∈ c := by
  induction c with
  | nil => simp [lookupKey] at hl
  | cons p rest ih =>
    rcases p with ⟨k', v'⟩
    unfold lookupKey at hl
    by_cases he : k' = k
    · rw [if_pos he] at hl
      injection hl with hv
      subst he
      subst hv
      exact List.mem_cons_self _ _
    · rw [if_neg he] at hl
      exact List.mem_cons_of_mem _ (ih hl)

/-- Mapping any known label lands in the allowed label set. -/
theorem mapLabel_known (lab : Text) (hlab : lab ∈ knownLabels) :
    mapLabel lab ∈ allowedLabels := by
  have hcases : lab = str "LABEL_0" ∨ lab = str "LABEL_1" ∨ lab = str "LABEL_2" ∨
      lab = str "NEGATIVE" ∨ lab = str "NEUTRAL" ∨ lab = str "POSITIVE" := by
    simpa [knownLabels] using hlab
  rcases hcases with h | h | h | h | h | h <;> subst h <;> decide

/-- Post-processing a well-formed raw result yields an allowed label and a
score in `[0, 1]`; so does the `("neutral", 0.5)` default on an empty one. -/
theorem postSentiment_good (rs : SentRes) (hg : GoodSentRes rs) :
    (postSentiment rs).1 ∈ allowedLabels ∧
    0 ≤ (postSentiment rs).2 ∧ (postSentiment rs).2 ≤ 1 := by
  cases rs with
  | nil =>
    refine ⟨by decide, by norm_num [postSentiment], by norm_num [postSentiment]⟩
  | cons r rest =>
    have hmem := pymaxBy_mem r rest
    have hgood := hg _ hmem
    unfold postSentiment
    dsimp only
    exact ⟨mapLabel_known _ hgood.1, hgood.2.1, hgood.2.2⟩

/-- C9 (amended): for every input text, whenever the sentiment provider
raises, or returns entries whose labels are among the six known label
strings with scores in `[0, 1]` (and the cache holds only such results),
the sentiment artifact attached to the processed comment satisfies
`label ∈ {positive, neutral, negative}` and `0 ≤ score ≤ 1`.  (The
unrestricted claim is false: see the counterexample, where a garbage label
and an out-of-range score pass through unclamped.) -/
theorem C9_sentiment_invariant_amended (h : Text → Nat)
    (sent : Text → Option SentRes) (summ : Text → Option SumRes)
    (st : ModelState) (stake text : Text)
    (hp : ∀ rs, sent (text.take 300) = some rs → GoodSentRes rs)
    (hc : ∀ p ∈ st.sentCache, GoodSentRes p.2) :
    (process_comment_async h sent summ st stake text).1.sentimentLabel ∈ allowedLabels ∧
    0 ≤ (process_comment_async h sent summ st stake text).1.sentimentScore ∧
    (process_comment_async h sent summ st stake text).1.sentimentScore ≤ 1 := by
  have key1 : (process_comment_async h sent summ st stake text).1.sentimentLabel
      = (analyze_sentiment_fast h sent st (text.take 300)).1.1 := rfl
  have key2 : (process_comment_async h sent summ st stake text).1.sentimentScore
      = (analyze_sentiment_fast h sent st (text.take 300)).1.2 := rfl
  rw [key1, key2]
  unfold analyze_sentiment_fast get_sentiment_cached
  rcases hl : lookupKey st.sentCache (h (text.take 300)) with _ | rs
  · rcases hpv : sent (text.take 300) with _ | rs
    · exact ⟨(by decide : str "neutral" ∈ allowedLabels),
        (by norm_num : (0 : ℚ) ≤ 1/2), (by norm_num : (1 : ℚ)/2 ≤ 1)⟩
    · exact postSentiment_good rs (hp rs hpv)
  · exact postSentiment_good rs (hc _ (lookupKey_mem _ _ _ hl))

/-- Witness for C9 (amended) with a well-formed provider on a fresh state. -/
theorem C9_sentiment_invariant_amended_witness :
    ((∀ rs, (fun (_ : Text) => some [(str "POSITIVE", (1 : ℚ))]) ((str "nice work here").take 300)
        = some rs → GoodSentRes rs) ∧
     (∀ p ∈ initState.sentCache, GoodSentRes p.2)) ∧
    ((process_comment_async (fun _ => 0) (fun _ => some [(str "POSITIVE", (1 : ℚ))])
        (fun _ => none) initState (str "citizen") (str "nice work here")).1.sentimentLabel ∈ allowedLabels ∧
     0 ≤ (process_comment_async (fun _ => 0) (fun _ => some [(str "POSITIVE", (1 : ℚ))])
        (fun _ => none) initState (str "citizen") (str "nice work here")).1.sentimentScore ∧
     (process_comment_async (fun _ => 0) (fun _ => some [(str "POSITIVE", (1 : ℚ))])
        (fun _ => none) initState (str "citizen") (str "nice work here")).1.sentimentScore ≤ 1) :=
  ⟨⟨fun rs hrs => by
      injection hrs with hv
      rw [← hv]
      decide,
    by decide⟩,
    C9_sentiment_invariant_amended (fun _ => 0) (fun _ => some [(str "POSITIVE", (1 : ℚ))])
      (fun _ => none) initState (str "citizen") (str "nice work here")
      (fun rs hrs => by
        injection hrs with hv
        rw [← hv]
        decide)
      (by decide)⟩

/-! ## C4 -/

/-- A sequence of cache writes, as applied by repeated calls of the cached
getters on cache misses. -/
def foldPut {α : Type} (c : List (Nat × α)) (ps : List (Nat × α)) : List (Nat × α) :=
  ps.foldl (fun acc p => cachePut acc p.1 p.2) c

theorem lookupKey_eq_none {α : Type} (c : List (Nat × α)) (k : Nat)
    (hk : k ∉ c.map Prod.fst) : lookupKey c k = none := by
  induction c with
  | nil => rfl
  | cons p rest ih =>
    rcases p with ⟨k', v'⟩
    simp only [List.map_cons, List.mem_cons] at hk
    push_neg at hk
    unfold lookupKey
    rw [if_neg (fun he => hk.1 he.symm)]
    exact ih hk.2

/-- Putting a fresh key into a cache that stays within capacity appends it. -/
theorem cachePut_fresh {α : Type} (c : List (Nat × α)) (k : Nat) (v : α)
    (hk : k ∉ c.map Prod.fst) (hlen : c.length + 1 ≤ 1000) :
    cachePut c k v = c ++ [(k, v)] := by
  unfold cachePut
  dsimp only
  rw [if_neg hk]
  rw [if_neg (by simp only [List.length_append, List.length_cons, List.length_nil]; omega)]

/-- Putting a fresh key into a cache holding exactly 1000 entries appends it
and then evicts the 100 oldest-inserted entries. -/
theorem cachePut_fresh_evict {α : Type} (c : List (Nat × α)) (k : Nat) (v : α)
    (hk : k ∉ c.map Prod.fst) (hlen : c.length = 1000) :
    cachePut c k v = (c ++ [(k, v)]).drop 100 := by
  unfold cachePut
  dsimp only
  rw [if_neg hk]
  rw [if_pos (by simp only [List.length_append, List.length_cons, List.length_nil]; omega)]

/-- Writing fresh, pairwise-distinct keys into a cache that never reaches
the capacity threshold just appends them in order. -/
theorem foldPut_fresh {α : Type} (ps : List (Nat × α)) : ∀ c : List (Nat × α),
    (ps.map Prod.fst).Nodup →
    (∀ k ∈ ps.map Prod.fst, k ∉ c.map Prod.fst) →
    c.length + ps.length ≤ 1000 →
    foldPut c ps = c ++ ps := by
  induction ps with
  | nil =>
    intro c _ _ _
    simp [foldPut]
  | cons p rest ih =>
    intro c hnd hdis hlen
    rcases p with ⟨k, v⟩
    simp only [List.map_cons, List.nodup_cons] at hnd
    simp only [List.length_cons] at hlen
    have h1 : cachePut c k v = c ++ [(k, v)] :=
      cachePut_fresh c k v (hdis k (by simp)) (by omega)
    unfold foldPut
    rw [List.foldl_cons]
    have h2 : foldPut (cachePut c k v) rest = cachePut c k v ++ rest := by
      refine ih (cachePut c k v) hnd.2 ?_ ?_
      · intro k' hk'
        rw [h1]
        simp only [List.map_append, List.map_cons, List.map_nil, List.mem_append,
          List.mem_cons, List.not_mem_nil]
        push_neg
        refine ⟨fun hmem => hdis k' (by simp [hk']) hmem, ?_, fun hf => hf⟩
        intro heq
        exact hnd.1 (heq ▸ hk')
      · rw [h1]
        simp only [List.length_append, List.length_cons, List.length_nil]
        omega
    unfold foldPut at h2
    rw [h2, h1]
    simp

/-- A single put keeps the cache at or below 1000 entries. -/
theorem cachePut_length_le {α : Type} (c : List (Nat × α)) (k : Nat) (v : α)
    (hc : c.length ≤ 1000) : (cachePut c k v).length ≤ 1000 := by
  unfold cachePut
  dsimp only
  by_cases hmem : k ∈ c.map Prod.fst
  · rw [if_pos hmem]
    have hmap : (c.map (fun p => if p.1 = k then (k, v) else p)).length = c.length :=
      List.length_map _ _
    by_cases hgt : (c.map (fun p => if p.1 = k then (k, v) else p)).length > 1000
    · rw [if_pos hgt]
      rw [List.length_drop, hmap]
      omega
    · rw [if_neg hgt]
      omega
  · rw [if_neg hmem]
    have happ : (c ++ [(k, v)]).length = c.length + 1 := by
      simp
    by_cases hgt : (c ++ [(k, v)]).length > 1000
    · rw [if_pos hgt]
      rw [List.length_drop, happ]
      omega
    · rw [if_neg hgt]
      rw [happ]
      rw [happ] at hgt
      omega

/-- Any sequence of puts keeps a within-capacity cache within capacity. -/
theorem foldPut_length_le {α : Type} (ps : List (Nat × α)) : ∀ c : List (Nat × α),
    c.length ≤ 1000 → (foldPut c ps).length ≤ 1000 := by
  induction ps with
  | nil =>
    intro c hc
    simpa [foldPut] using hc
  | cons p rest ih =>
    intro c hc
    unfold foldPut
    rw [List.foldl_cons]
    exact ih _ (cachePut_length_le c p.1 p.2 hc)

/-- C4: the cache obeys the capacity/eviction contract with capacity 1000
and eviction batch 100.  Starting from an empty cache, after any sequence
of puts the size never exceeds 1000; inserting 1001 pairwise-distinct
fingerprints leaves exactly the last 901 inserted entries — the 1001st put
triggers one eviction removing precisely the 100 oldest-inserted entries
(FIFO by insertion order) — so the final size 901 is at most
`capacity - evictionBatch + 1`, and each of the 100 earliest-inserted
fingerprints is no longer retrievable via `get`. -/
theorem C4_cache_capacity_eviction {α : Type} (ps : List (Nat × α))
    (hlen : ps.length = 1001) (hnd : (ps.map Prod.fst).Nodup) :
    (∀ qs : List (Nat × α), (foldPut [] qs).length ≤ 1000) ∧
    foldPut [] ps = ps.drop 100 ∧
    (foldPut [] ps).length = 901 ∧ 901 ≤ 1000 - 100 + 1 ∧
    (∀ p ∈ ps.take 100, lookupKey (foldPut [] ps) p.1 = none) := by
  have htake : (ps.take 1000).length = 1000 := by
    rw [List.length_take]
    omega
  have hdroplen : (ps.drop 1000).length = 1 := by
    rw [List.length_drop, hlen]
  obtain ⟨q, hq⟩ := List.length_eq_one.mp hdroplen
  have hsplit : ps.take 1000 ++ [q] = ps := by
    rw [← hq]
    exact List.take_append_drop 1000 ps
  have hkeys : (ps.map Prod.fst).Nodup := hnd
  have hkeysplit : ps.map Prod.fst = (ps.take 1000).map Prod.fst ++ [q.1] := by
    conv_lhs => rw [← hsplit]
    simp
  have hndtake : ((ps.take 1000).map Prod.fst).Nodup := by
    rw [hkeysplit] at hkeys
    exact (List.nodup_append.mp hkeys).1
  have hqfresh : q.1 ∉ (ps.take 1000).map Prod.fst := by
    rw [hkeysplit] at hkeys
    have hdis := (List.nodup_append.mp hkeys).2.2
    intro hmem
    exact hdis hmem (by simp)
  have hfold1000 : foldPut [] (ps.take 1000) = ps.take 1000 := by
    have := foldPut_fresh (ps.take 1000) [] hndtake (by simp)
      (by simp only [List.length_nil, htake]; omega)
    simpa using this
  have hmain : foldPut [] ps = ps.drop 100 := by
    rw [← hsplit]
    unfold foldPut
    rw [List.foldl_append]
    have h1 : List.foldl (fun acc p => cachePut acc p.1 p.2) [] (ps.take 1000)
        = ps.take 1000 := hfold1000
    rw [h1]
    simp only [List.foldl_cons, List.foldl_nil]
    rw [cachePut_fresh_evict (ps.take 1000) q.1 q.2 hqfresh htake]
  refine ⟨fun qs => foldPut_length_le qs [] (by simp), hmain, ?_, by omega, ?_⟩
  · rw [hmain, List.length_drop, hlen]
  · intro p hp
    rw [hmain]
    refine lookupKey_eq_none _ _ ?_
    have hkeysplit100 : ps.map Prod.fst
        = (ps.take 100).map Prod.fst ++ (ps.drop 100).map Prod.fst := by
      rw [← List.map_append, List.take_append_drop]
    rw [hkeysplit100] at hkeys
    have hdis := (List.nodup_append.mp hkeys).2.2
    intro hmem
    exact hdis (List.mem_map_of_mem Prod.fst hp) hmem

/-- The keys of the range-indexed pair list are `0, …, 1000` themselves. -/
theorem rangeKeys :
    ((List.range 1001).map (fun i => (i, (0 : Nat)))).map Prod.fst = List.range 1001 := by
  rw [List.map_map]
  calc (List.range 1001).map (Prod.fst ∘ fun i => (i, (0 : Nat)))
      = (List.range 1001).map (fun a => a) :=
        List.map_congr_left (fun a _ => rfl)
    _ = List.range 1001 := List.map_id' _

/-- Witness for C4: 1001 distinct keys `0, …, 1000`. -/
theorem C4_cache_capacity_eviction_witness :
    (((List.range 1001).map (fun i => (i, 0))).length = 1001 ∧
     ((((List.range 1001).map (fun i => (i, (0 : Nat)))).map Prod.fst).Nodup)) ∧
    ((∀ qs : List (Nat × Nat), (foldPut [] qs).length ≤ 1000) ∧
     foldPut [] ((List.range 1001).map (fun i => (i, 0)))
        = ((List.range 1001).map (fun i => (i, 0))).drop 100 ∧
     (foldPut [] ((List.range 1001).map (fun i => (i, 0)))).length = 901 ∧
     901 ≤ 1000 - 100 + 1 ∧
     (∀ p ∈ ((List.range 1001).map (fun i => (i, 0))).take 100,
        lookupKey (foldPut [] ((List.range 1001).map (fun i => (i, 0)))) p.1 = none)) :=
  ⟨⟨by simp, by rw [rangeKeys]; exact List.nodup_range 1001⟩,
    C4_cache_capacity_eviction ((List.range 1001).map (fun i => (i, 0)))
      (by simp) (by rw [rangeKeys]; exact List.nodup_range 1001)⟩

/-! ## C5 -/

theorem lookupKey_head {α : Type} (k : Nat) (v : α) (c : List (Nat × α)) :
    lookupKey ((k, v) :: c) k = some v := by
  unfold lookupKey
  rw [if_pos rfl]

/-- Sentiment analysis on a cache miss with a succeeding provider: the raw
result is cached and the invocation counter advances. -/
theorem asf_miss_succeeds (h : Text → Nat) (sent : Text → Option SentRes)
    (st : ModelState) (text : Text) (rs : SentRes)
    (hmiss : lookupKey st.sentCache (h text) = none)
    (hsucc : sent text = some rs) :
    analyze_sentiment_fast h sent st text =
      (postSentiment rs,
        { st with sentCache := cachePut st.sentCache (h text) rs,
                  sentCount := st.sentCount + 1 }) := by
  unfold analyze_sentiment_fast get_sentiment_cached
  rw [hmiss, hsucc]

/-- Sentiment analysis on a cache hit: no provider invocation, no state
change. -/
theorem asf_hit (h : Text → Nat) (sent : Text → Option SentRes)
    (st : ModelState) (text : Text) (rs : SentRes)
    (hhit : lookupKey st.sentCache (h text) = some rs) :
    analyze_sentiment_fast h sent st text = (postSentiment rs, st) := by
  unfold analyze_sentiment_fast get_sentiment_cached
  rw [hhit]

/-- Summary generation on a cache miss with a succeeding provider (for
texts of at least 3 words): the raw result is cached and the invocation
counter advances. -/
theorem gsf_miss_succeeds (h : Text → Nat) (summ : Text → Option SumRes)
    (st : ModelState) (text : Text) (rs : SumRes)
    (hwc : ¬ (pySplitWs text).length < 3)
    (hmiss : lookupKey st.sumCache (h text) = none)
    (hsucc : summ text = some rs) :
    generate_summary_fast h summ st text =
      (postSummary text rs,
        { st with sumCache := cachePut st.sumCache (h text) rs,
                  sumCount := st.sumCount + 1 }) := by
  unfold generate_summary_fast get_summary_cached
  rw [if_neg hwc, hmiss, hsucc]

/-- Summary generation on a cache hit: no provider invocation, no state
change. -/
theorem gsf_hit (h : Text → Nat) (summ : Text → Option SumRes)
    (st : ModelState) (text : Text) (rs : SumRes)
    (hwc : ¬ (pySplitWs text).length < 3)
    (hhit : lookupKey st.sumCache (h text) = some rs) :
    generate_summary_fast h summ st text = (postSummary text rs, st) := by
  unfold generate_summary_fast get_summary_cached
  rw [if_neg hwc, hhit]

/-- C5 counterexample: the claim fails for texts of fewer than 3 words.
Processing the two-word text `"Good idea."` twice (with always-succeeding
counting stubs, from a fresh state) invokes the summary provider chain
zero times, not exactly once: the short-text rule bypasses the chain on
both calls. -/
theorem C5_counterexample :
    (process_comment_async (fun _ => 0) (fun _ => some [(str "POSITIVE", 1)])
        (fun _ => some [str "stub"])
        (process_comment_async (fun _ => 0) (fun _ => some [(str "POSITIVE", 1)])
          (fun _ => some [str "stub"]) initState (str "citizen") (str "Good idea.")).2
        (str "citizen") (str "Good idea.")).2.sumCount = 0 ∧
    ¬ ((process_comment_async (fun _ => 0) (fun _ => some [(str "POSITIVE", 1)])
        (fun _ => some [str "stub"])
        (process_comment_async (fun _ => 0) (fun _ => some [(str "POSITIVE", 1)])
          (fun _ => some [str "stub"]) initState (str "citizen") (str "Good idea.")).2
        (str "citizen") (str "Good idea.")).2.sumCount = 1) := by
  constructor
  · decide
  · decide

/-- C5 (amended): processing the same text twice in sequence from a fresh
state, with succeeding providers, invokes the sentiment chain exactly once
over both calls and the summary chain exactly once when the (300-truncated)
text has at least 3 words and zero times otherwise (short-circuit); the
second call is served entirely from the caches — it returns the same
record and leaves the state unchanged, so both calls return sentiment and
summary artifacts equal in value. -/
theorem C5_caching_idempotence_amended (h : Text → Nat) (sfn : Text → SentRes)
    (gfn : Text → SumRes) (stake text : Text) :
    (process_comment_async h (fun u => some (sfn u)) (fun u => some (gfn u))
        initState stake text).2.sentCount = 1 ∧
    (process_comment_async h (fun u => some (sfn u)) (fun u => some (gfn u))
        initState stake text).2.sumCount
      = (if (pySplitWs (text.take 300)).length < 3 then 0 else 1) ∧
    process_comment_async h (fun u => some (sfn u)) (fun u => some (gfn u))
        (process_comment_async h (fun u => some (sfn u)) (fun u => some (gfn u))
          initState stake text).2 stake text
      = process_comment_async h (fun u => some (sfn u)) (fun u => some (gfn u))
          initState stake text := by
  have e1 : analyze_sentiment_fast h (fun u => some (sfn u)) initState (text.take 300)
      = (postSentiment (sfn (text.take 300)),
         ⟨[(h (text.take 300), sfn (text.take 300))], [], 1, 0⟩) :=
    asf_miss_succeeds h _ initState (text.take 300) (sfn (text.take 300)) rfl rfl
  by_cases hwc : (pySplitWs (text.take 300)).length < 3
  · have g1 : ∀ st : ModelState,
        generate_summary_fast h (fun u => some (gfn u)) st (text.take 300)
          = ((if (text.take 300).length ≤ 50 then (text.take 300).take 50
              else (text.take 300).take 47 ++ dots), st) := by
      intro st
      unfold generate_summary_fast
      rw [if_pos hwc]
    have p1 : process_comment_async h (fun u => some (sfn u)) (fun u => some (gfn u))
        initState stake text
        = ({ stakeholder := stake, rawText := text.take 300,
             sentimentLabel := (postSentiment (sfn (text.take 300))).1,
             sentimentScore := (postSentiment (sfn (text.take 300))).2,
             summary := (if (text.take 300).length ≤ 50 then (text.take 300).take 50
               else (text.take 300).take 47 ++ dots) },
           ⟨[(h (text.take 300), sfn (text.take 300))], [], 1, 0⟩) := by
      unfold process_comment_async
      dsimp only
      rw [e1, g1]
    have e2 : analyze_sentiment_fast h (fun u => some (sfn u))
        (⟨[(h (text.take 300), sfn (text.take 300))], [], 1, 0⟩ : ModelState)
        (text.take 300)
        = (postSentiment (sfn (text.take 300)),
           ⟨[(h (text.take 300), sfn (text.take 300))], [], 1, 0⟩) :=
      asf_hit h _ _ (text.take 300) (sfn (text.take 300)) (lookupKey_head _ _ _)
    have p2 : process_comment_async h (fun u => some (sfn u)) (fun u => some (gfn u))
        (⟨[(h (text.take 300), sfn (text.take 300))], [], 1, 0⟩ : ModelState) stake text
        = ({ stakeholder := stake, rawText := text.take 300,
             sentimentLabel := (postSentiment (sfn (text.take 300))).1,
             sentimentScore := (postSentiment (sfn (text.take 300))).2,
             summary := (if (text.take 300).length ≤ 50 then (text.take 300).take 50
               else (text.take 300).take 47 ++ dots) },
           ⟨[(h (text.take 300), sfn (text.take 300))], [], 1, 0⟩) := by
      unfold process_comment_async
      dsimp only
      rw [e2, g1]
    rw [p1]
    refine ⟨rfl, ?_, ?_⟩
    · rw [if_pos hwc]
    · rw [p2]
  · have g1 : generate_summary_fast h (fun u => some (gfn u))
        (⟨[(h (text.take 300), sfn (text.take 300))], [], 1, 0⟩ : ModelState)
        (text.take 300)
        = (postSummary (text.take 300) (gfn (text.take 300)),
           ⟨[(h (text.take 300), sfn (text.take 300))],
            [(h (text.take 300), gfn (text.take 300))], 1, 1⟩) :=
      gsf_miss_succeeds h _ _ (text.take 300) (gfn (text.take 300)) hwc rfl rfl
    have p1 : process_comment_async h (fun u => some (sfn u)) (fun u => some (gfn u))
        initState stake text
        = ({ stakeholder := stake, rawText := text.take 300,
             sentimentLabel := (postSentiment (sfn (text.take 300))).1,
             sentimentScore := (postSentiment (sfn (text.take 300))).2,
             summary := postSummary (text.take 300) (gfn (text.take 300)) },
           ⟨[(h (text.take 300), sfn (text.take 300))],
            [(h (text.take 300), gfn (text.take 300))], 1, 1⟩) := by
      unfold process_comment_async
      dsimp only
      rw [e1, g1]
    have e2 : analyze_sentiment_fast h (fun u => some (sfn u))
        (⟨[(h (text.take 300), sfn (text.take 300))],
          [(h (text.take 300), gfn (text.take 300))], 1, 1⟩ : ModelState)
        (text.take 300)
        = (postSentiment (sfn (text.take 300)),
           ⟨[(h (text.take 300), sfn (text.take 300))],
            [(h (text.take 300), gfn (text.take 300))], 1, 1⟩) :=
      asf_hit h _ _ (text.take 300) (sfn (text.take 300)) (lookupKey_head _ _ _)
    have g2 : generate_summary_fast h (fun u => some (gfn u))
        (⟨[(h (text.take 300), sfn (text.take 300))],
          [(h (text.take 300), gfn (text.take 300))], 1, 1⟩ : ModelState)
        (text.take 300)
        = (postSummary (text.take 300) (gfn (text.take 300)),
           ⟨[(h (text.take 300), sfn (text.take 300))],
            [(h (text.take 300), gfn (text.take 300))], 1, 1⟩) :=
      gsf_hit h _ _ (text.take 300) (gfn (text.take 300)) hwc (lookupKey_head _ _ _)
    have p2 : process_comment_async h (fun u => some (sfn u)) (fun u => some (gfn u))
        (⟨[(h (text.take 300), sfn (text.take 300))],
          [(h (text.take 300), gfn (text.take 300))], 1, 1⟩ : ModelState) stake text
        = ({ stakeholder := stake, rawText := text.take 300,
             sentimentLabel := (postSentiment (sfn (text.take 300))).1,
             sentimentScore := (postSentiment (sfn (text.take 300))).2,
             summary := postSummary (text.take 300) (gfn (text.take 300)) },
           ⟨[(h (text.take 300), sfn (text.take 300))],
            [(h (text.take 300), gfn (text.take 300))], 1, 1⟩) := by
      unfold process_comment_async
      dsimp only
      rw [e2, g2]
    rw [p1]
    refine ⟨rfl, ?_, ?_⟩
    · rw [if_neg hwc]
    · rw [p2]

end SIH
